import Mathlib

/-
Verification of the time-accounting core of the weekly timesheet tracker
(src/Timesheet.py). Timestamps are modelled as rationals (seconds), standing
for the local-naive ISO-8601 datetime strings the program stores; the
isoformat/fromisoformat pair is a bijection, so a session is modelled directly
as its pair of timestamps. The wall clock, sampled by the program through
datetime.now and date.today, is modelled as an explicitly passed Instant
carrying the current time and the current weekday (Monday = 0).
-/

namespace Timesheet

/-- One day cell of one task row (Python dataclass DayData): the list of closed
sessions as (start, end) timestamp pairs, the free-text notes, and the optional
start instant of an open running timer. -/
structure DayData where
  sessions : List (Rat × Rat)
  notes : String
  running_start : Option Rat
deriving DecidableEq, Repr

/-- The dataclass defaults of DayData: no sessions, empty notes, no open timer. -/
def DayData.empty : DayData := ⟨[], "", none⟩

/-- DayData.total_hours: the sum of (end - start)/3600 over the closed sessions,
plus (now - running_start)/3600 when a timer is open. The Python method samples
datetime.now internally; here the instant is an explicit argument. -/
def DayData.total_hours (d : DayData) (now : Rat) : Rat :=
  (d.sessions.map (fun se => (se.2 - se.1) / 3600)).sum +
    (match d.running_start with
     | some t0 => (now - t0) / 3600
     | none => 0)

/-- The persisted dict written by DayData.to_dict and read by DayData.from_dict.
A field holding none stands for a key absent from the dict. The dict has no
running_start key at all. -/
structure DayDict where
  sessions : Option (List (Rat × Rat))
  notes : Option String
deriving DecidableEq, Repr

/-- DayData.to_dict: emits only the sessions and the notes. -/
def DayData.to_dict (d : DayData) : DayDict :=
  ⟨some d.sessions, some d.notes⟩

/-- DayData.from_dict: reads sessions (default empty list) and notes (default
empty string) with dict.get; the fresh DayData() it fills has running_start
none, and from_dict never sets it. -/
def DayData.from_dict (dd : DayDict) : DayData :=
  ⟨dd.sessions.getD [], dd.notes.getD "", none⟩

/-- One task row (Python dataclass TaskRowData): the task and subtask names and
the list of per-weekday day records. -/
structure TaskRowData where
  task : String
  subtask : String
  days : List DayData
deriving DecidableEq, Repr

/-- The dataclass constructor TaskRowData(task, subtask): the days field
defaults to seven fresh empty DayData records, one per weekday. -/
def TaskRowData.new (task subtask : String) : TaskRowData :=
  ⟨task, subtask, List.replicate 7 DayData.empty⟩

/-- TaskRowData.total_hours: the sum of total_hours over the day records. -/
def TaskRowData.total_hours (r : TaskRowData) (now : Rat) : Rat :=
  (r.days.map (fun d => d.total_hours now)).sum

/-- The persisted dict written by TaskRowData.to_dict. The task and subtask keys
are required on read (Python indexes them directly, raising KeyError when
absent, which the loader turns into a reset); the days key may be absent. -/
structure TaskRowDict where
  task : String
  subtask : String
  days : Option (List DayDict)
deriving DecidableEq, Repr

/-- TaskRowData.to_dict: emits the task, the subtask, and the per-day dicts. -/
def TaskRowData.to_dict (r : TaskRowData) : TaskRowDict :=
  ⟨r.task, r.subtask, some (r.days.map DayData.to_dict)⟩

/-- TaskRowData.from_dict: builds the row with the defaulted constructor and
then unconditionally replaces the days field with the list read from the dict;
an absent days key gives the empty list, not the seven defaulted records. -/
def TaskRowData.from_dict (d : TaskRowDict) : TaskRowData :=
  { TaskRowData.new d.task d.subtask with
    days := (d.days.getD []).map DayData.from_dict }

/-- The in-memory data store: the mapping from employee-and-week key to the
list of task rows of that week sheet. -/
abbrev Store := List (String × List TaskRowData)

/-- The serialized form of the store written to the data file. -/
abbrev FileData := List (String × List TaskRowDict)

/-- TimesheetApp._save_data: serializes every entry of the store with
TaskRowData.to_dict and overwrites the file with the result. -/
def saveStore (store : Store) : FileData :=
  store.map (fun kv => (kv.1, kv.2.map TaskRowData.to_dict))

/-- The raw persisted file as the loader sees it: ok when the file parses into
the documented shape, corrupt when the file is missing, is not readable JSON,
or has any other shape (each of which makes TimesheetApp._load_data either skip
loading or catch the raised exception and reset the store to empty). -/
inductive Persisted where
  | ok (entries : FileData)
  | corrupt
deriving DecidableEq, Repr

/-- TimesheetApp._load_data: on a well-shaped file, deserializes every entry
with TaskRowData.from_dict; on any failure the except handler assigns the empty
mapping, so a partially filled store never survives a failed load. -/
def load_data : Persisted → Store
  | .ok entries => entries.map (fun kv => (kv.1, kv.2.map TaskRowData.from_dict))
  | .corrupt => []

/-- The weekly total computed by TimesheetApp._update_week_total and by the
total cell of TimesheetApp._add_total_row: the sum of TaskRowData.total_hours
over the rows of the sheet in view. -/
def week_total (rows : List TaskRowData) (now : Rat) : Rat :=
  (rows.map (fun r => r.total_hours now)).sum

/-- The per-weekday total computed by TimesheetApp._add_total_row: the sum over
the rows of the sheet of the total_hours of day di of each row. The Python code
indexes r.days[di] directly; the UI always supplies di below 7 and rows built
with seven days, so the getD default is never reached there. -/
def daily_total (rows : List TaskRowData) (di : Nat) (now : Rat) : Rat :=
  (rows.map (fun r => (r.days.getD di DayData.empty).total_hours now)).sum

/-- The mutation TimesheetApp._stop_timer applies to the day record: when a
timer is open, append the (running_start, now) pair to the sessions and clear
running_start; when no timer is open, leave the record alone. The code performs
no comparison between now and running_start. -/
def stopDay (d : DayData) (now : Rat) : DayData :=
  match d.running_start with
  | some t0 => { d with sessions := d.sessions ++ [(t0, now)], running_start := none }
  | none => d

section Lemmas

/-- A list sum of mapped values written as a Finset.range sum of positional
reads. -/
theorem sum_map_eq_sum_range {α : Type} (l : List α) (f : α → Rat) (d0 : α) :
    (l.map f).sum =
      Finset.sum (Finset.range l.length) (fun i => f (l.getD i d0)) := by
  induction l with
  | nil => simp
  | cons a t ih =>
    rw [List.map_cons, List.sum_cons, ih, List.length_cons,
      Finset.sum_range_succ' (fun i => f ((a :: t).getD i d0)) t.length]
    simp [add_comm]

/-- Serializing and deserializing one day record keeps the sessions and the
notes and clears the running timer. -/
theorem from_to_day (d : DayData) :
    DayData.from_dict (DayData.to_dict d) = { d with running_start := none } := rfl

/-- Serializing and deserializing one task row keeps the task, the subtask and
the day list, with every running timer cleared. -/
theorem from_to_row (r : TaskRowData) :
    TaskRowData.from_dict (TaskRowData.to_dict r) =
      { r with days := r.days.map (fun d => { d with running_start := none }) } := by
  cases r with
  | mk task subtask days =>
    simp [TaskRowData.from_dict, TaskRowData.to_dict, TaskRowData.new,
      List.map_map, Function.comp_def, from_to_day]

end Lemmas

/-- Claim C2: continuity at stop. For every day record with a timer started at
t0, total_hours at instant t1 computed with the open-timer formula equals
total_hours at the same instant t1 computed after the stop mutation has closed
the session, exactly (hence within any floating-point tolerance). -/
theorem continuity_at_stop (d : DayData) (t0 t1 : Rat)
    (h : d.running_start = some t0) :
    d.total_hours t1 = (stopDay d t1).total_hours t1 := by
  simp [DayData.total_hours, stopDay, h, List.map_append, List.sum_append]

/-- Witness for C2 at a concrete day record: one closed one-hour session and a
timer opened at 7200, evaluated and stopped at 10800. -/
theorem continuity_at_stop_witness :
    (DayData.mk [(0, 3600)] "" (some 7200)).running_start = some 7200 ∧
      (DayData.mk [(0, 3600)] "" (some 7200)).total_hours 10800 =
        (stopDay (DayData.mk [(0, 3600)] "" (some 7200)) 10800).total_hours 10800 :=
  ⟨rfl, continuity_at_stop (DayData.mk [(0, 3600)] "" (some 7200)) 7200 10800 rfl⟩

/-- Claim C5 (the code deviates): TaskRowData.from_dict on a dict with the days
key absent yields a row with zero day records, not the documented seven empty
records, because the defaulted constructor days are unconditionally overwritten
with the empty list; downstream code then crashes indexing days[0..6]. The
notes default does behave as documented, and the constructor default really is
seven records. -/
theorem from_dict_missing_days_bug :
    (TaskRowData.from_dict ⟨"Curriculum Development", "Meeting", none⟩).days = [] ∧
      (TaskRowData.from_dict ⟨"Curriculum Development", "Meeting", none⟩).days.length ≠ 7 ∧
      (TaskRowData.new "Curriculum Development" "Meeting").days.length = 7 ∧
      DayData.from_dict ⟨some [(0, 3600)], none⟩ = ⟨[(0, 3600)], "", none⟩ ∧
      DayData.from_dict ⟨none, none⟩ = ⟨[], "", none⟩ := by
  refine ⟨rfl, by decide, by decide, rfl, rfl⟩

/-- Claim C6: round-trip through the store. Loading the file written by saving
any store reproduces the same mapping: the same keys in the same order, and for
every entry the same task, subtask, per-day session lists and notes; only the
running_start fields are dropped, as the persisted format omits them. -/
theorem store_round_trip (store : Store) :
    load_data (Persisted.ok (saveStore store)) =
      store.map (fun kv => (kv.1, kv.2.map (fun r =>
        { r with days := r.days.map (fun d => { d with running_start := none }) }))) := by
  simp [load_data, saveStore, List.map_map, Function.comp_def, from_to_row]

/-- Claim C9: the loader is total and forgiving. On a corrupt or unreadable
file it yields the empty mapping (the except handler resets the store, so a
partial load never survives), and on a well-shaped file it yields a mapping
with exactly the persisted keys. -/
theorem load_failure_empty :
    load_data Persisted.corrupt = [] ∧
      ∀ entries : FileData,
        (load_data (Persisted.ok entries)).map Prod.fst = entries.map Prod.fst := by
  refine ⟨rfl, fun entries => ?_⟩
  simp [load_data, List.map_map, Function.comp_def]

/-- Claim C10: an open timer never survives persistence. to_dict writes only
sessions and notes (the DayDict shape has no running_start at all) and every
day record produced by from_dict carries running_start none, so after a
save/load cycle of any store no day record of the resulting mapping has an open
timer. -/
theorem no_open_timer_after_reload (store : Store)
    (kv : String × List TaskRowData) (r : TaskRowData) (d : DayData)
    (hkv : kv ∈ load_data (Persisted.ok (saveStore store)))
    (hr : r ∈ kv.2) (hd : d ∈ r.days) :
    d.running_start = none := by
  simp only [load_data, saveStore, List.map_map, List.mem_map] at hkv
  obtain ⟨kv0, -, rfl⟩ := hkv
  simp only [Function.comp_def, List.mem_map] at hr
  obtain ⟨r0, -, rfl⟩ := hr
  simp only [TaskRowData.from_dict, TaskRowData.to_dict, TaskRowData.new,
    Option.getD_some, List.mem_map] at hd
  obtain ⟨d0, -, rfl⟩ := hd
  rfl

/-- Witness for C10: a store holding one row whose Monday record has an open
timer; after the save/load cycle the reloaded record has none. -/
theorem no_open_timer_after_reload_witness :
    (("k", [TaskRowData.mk "T" "S" [DayData.mk [(0, 60)] "n" (some 5)]]) ∈
        load_data (Persisted.ok (saveStore
          [("k", [TaskRowData.mk "T" "S" [DayData.mk [(0, 60)] "n" (some 5)]])])) →
      True) ∧
      (("k", [TaskRowData.mk "T" "S" [DayData.mk [(0, 60)] "n" none]]) ∈
        load_data (Persisted.ok (saveStore
          [("k", [TaskRowData.mk "T" "S" [DayData.mk [(0, 60)] "n" (some 5)]])]))) ∧
      (DayData.mk [(0, 60)] "n" none).running_start = none :=
  ⟨fun _ => trivial, by decide,
    no_open_timer_after_reload
      [("k", [TaskRowData.mk "T" "S" [DayData.mk [(0, 60)] "n" (some 5)]])]
      ("k", [TaskRowData.mk "T" "S" [DayData.mk [(0, 60)] "n" none]])
      (TaskRowData.mk "T" "S" [DayData.mk [(0, 60)] "n" none])
      (DayData.mk [(0, 60)] "n" none)
      (by decide) (by decide) (by decide)⟩

/-- Claim C7: aggregation additivity at a fixed instant. The weekly total is
the sum of the row totals, each row total with seven day records is the sum of
its seven per-day totals, and each per-weekday daily total is the sum over the
rows of that weekday, all exactly in the rational model. -/
theorem aggregation_additivity (rows : List TaskRowData) (now : Rat) :
    week_total rows now =
        Finset.sum (Finset.range rows.length)
          (fun i => (rows.getD i (TaskRowData.new "" "")).total_hours now) ∧
      (∀ r : TaskRowData, r.days.length = 7 →
        r.total_hours now =
          Finset.sum (Finset.range 7)
            (fun i => (r.days.getD i DayData.empty).total_hours now)) ∧
      ∀ di : Nat,
        daily_total rows di now =
          Finset.sum (Finset.range rows.length)
            (fun i =>
              ((rows.getD i (TaskRowData.new "" "")).days.getD di
                  DayData.empty).total_hours now) := by
  refine ⟨?_, fun r h7 => ?_, fun di => ?_⟩
  · exact sum_map_eq_sum_range rows (fun r => r.total_hours now) (TaskRowData.new "" "")
  · rw [TaskRowData.total_hours,
      sum_map_eq_sum_range r.days (fun d => d.total_hours now) DayData.empty, h7]
  · exact sum_map_eq_sum_range rows
      (fun r => (r.days.getD di DayData.empty).total_hours now) (TaskRowData.new "" "")

/-- Witness for C7: one freshly added row evaluated at instant 0; the
constructor gives it the seven day records the per-row additivity needs. -/
theorem aggregation_additivity_witness :
    (TaskRowData.new "A" "B").days.length = 7 ∧
      (TaskRowData.new "A" "B").total_hours 0 =
        Finset.sum (Finset.range 7)
          (fun i => ((TaskRowData.new "A" "B").days.getD i DayData.empty).total_hours 0) :=
  ⟨by decide,
    (aggregation_additivity [TaskRowData.new "A" "B"] 0).2.1
      (TaskRowData.new "A" "B") (by decide)⟩

/-- The wall clock at one sampled instant: the current time, read through
datetime.now, and the weekday of the current date (Monday = 0), read through
date.today().weekday(). One instant determines both. -/
structure Instant where
  time : Rat
  weekday : Fin 7
deriving DecidableEq, Repr

/-- The pop-up warnings _toggle_timer raises instead of changing state:
activeTimer is the box titled Active Timer (stop the current timer first), the
TimerBusyError of the design; invalidDay is the box titled Invalid (only the
timer of today may start), the WrongDayError of the design. -/
inductive Warning where
  | activeTimer
  | invalidDay
deriving DecidableEq, Repr

/-- The timer-relevant state of TimesheetApp: the in-memory data store, the key
of the week sheet in view (in Python self.rows aliases self.data_store[key]),
the active-timer reference, and the current content of the data file. -/
structure AppState where
  data_store : Store
  key : String
  active_timer : Option (Nat × Nat)
  file : FileData
deriving DecidableEq, Repr

/-- Reading one key of the store (Python dict indexing; keys are unique in a
dict, so the first match is the match). -/
def storeGet : Store → String → List TaskRowData
  | [], _ => []
  | kv :: rest, k => if kv.1 = k then kv.2 else storeGet rest k

/-- Writing one key of the store. The timer operations only write keys that
_load_employee_week has already made present, so no insertion case is needed. -/
def updateStore : Store → String → List TaskRowData → Store
  | [], _, _ => []
  | kv :: rest, k, v => (if kv.1 = k then (kv.1, v) else kv) :: updateStore rest k v

/-- self.rows: the row list of the week sheet in view. -/
def AppState.rows (s : AppState) : List TaskRowData :=
  storeGet s.data_store s.key

/-- Reading self.rows[ri].days[di]; none models the IndexError the Python
indexing raises on an out-of-range pair (never reached from the UI, whose
buttons exist only for the cells of the table). -/
def getDay (rows : List TaskRowData) (ri di : Nat) : Option DayData :=
  rows[ri]?.bind (fun r => r.days[di]?)

/-- Writing self.rows[ri].days[di]: in Python an in-place mutation of the day
object, seen through every alias; here the row list is rebuilt with that one
day replaced. -/
def setDay (rows : List TaskRowData) (ri di : Nat) (d : DayData) : List TaskRowData :=
  match rows[ri]? with
  | some r => rows.set ri { r with days := r.days.set di d }
  | none => rows

/-- TimesheetApp._stop_timer(ri, di): reads rows[ri].days[di], applies the
stopDay mutation, clears the active-timer reference unconditionally, and saves
the whole store to the file. It pops no warning box and raises nothing. -/
def stop_timer (s : AppState) (ri di : Nat) (now : Instant) :
    Option (AppState × Option Warning) :=
  match getDay s.rows ri di with
  | none => none
  | some d =>
    let rows1 := setDay s.rows ri di (stopDay d now.time)
    let store1 := updateStore s.data_store s.key rows1
    some ({ data_store := store1, key := s.key, active_timer := none,
            file := saveStore store1 }, none)

/-- TimesheetApp._toggle_timer(ri, di): when the active-timer reference is
exactly (ri, di), delegate to _stop_timer; when some other timer is active,
warn and change nothing; when di is not the weekday of today, warn and change
nothing; otherwise set running_start to now on that day and point the
active-timer reference at (ri, di). Starting does not save the store. -/
def toggle_timer (s : AppState) (ri di : Nat) (now : Instant) :
    Option (AppState × Option Warning) :=
  match getDay s.rows ri di with
  | none => none
  | some d =>
    if s.active_timer = some (ri, di) then
      stop_timer s ri di now
    else if s.active_timer.isSome then
      some (s, some Warning.activeTimer)
    else if di ≠ (now.weekday : Nat) then
      some (s, some Warning.invalidDay)
    else
      let rows1 := setDay s.rows ri di { d with running_start := some now.time }
      some ({ s with
                data_store := updateStore s.data_store s.key rows1
                active_timer := some (ri, di) }, none)

/-- One user click on a start/stop button: the row index, the day index, and
the instant at which the click lands. -/
structure Op where
  ri : Nat
  di : Nat
  now : Instant
deriving DecidableEq, Repr

/-- The state after one click: the warning, if any, is shown and discarded; a
click on a cell outside the table leaves the state alone. -/
def step (s : AppState) (op : Op) : AppState :=
  match toggle_timer s op.ri op.di op.now with
  | some (s1, _) => s1
  | none => s

/-- The state after a sequence of clicks. -/
def run (s : AppState) (ops : List Op) : AppState :=
  ops.foldl step s

/-- Whether the day record at (ri, di) of the sheet has an open timer. -/
def dayOpen (rows : List TaskRowData) (ri di : Nat) : Bool :=
  ((getDay rows ri di).map (fun d => d.running_start.isSome)).getD false

/-- Whether no day record of the sheet has an open timer. -/
def allClosed (rows : List TaskRowData) : Bool :=
  rows.all (fun r => r.days.all (fun d => d.running_start.isNone))

/-- The single-active-timer invariant: every open day record is the one the
active-timer reference points at. -/
def TimerInv (s : AppState) : Prop :=
  ∀ ri di, dayOpen s.rows ri di = true → s.active_timer = some (ri, di)

section StateLemmas

/-- A Boolean option that is not true-some is none. -/
theorem isSome_false_eq_none {α : Type} {o : Option α} (h : o.isSome = false) :
    o = none := by
  cases o with
  | none => rfl
  | some a => simp [Option.isSome] at h

/-- A sheet with a readable cell is nonempty. -/
theorem rows_ne_nil_of_getDay {rows : List TaskRowData} {ri di : Nat} {d : DayData}
    (h : getDay rows ri di = some d) : rows ≠ [] := by
  intro he
  subst he
  simp [getDay] at h

/-- Reading a cell through the row found at its index. -/
theorem getDay_eq {rows : List TaskRowData} {ri di : Nat} {r : TaskRowData}
    (hr : rows[ri]? = some r) : getDay rows ri di = r.days[di]? := by
  simp [getDay, hr]

/-- Writing a readable cell makes that cell read back the written value. -/
theorem getDay_setDay_self {rows : List TaskRowData} {ri di : Nat} {d0 : DayData}
    (h : getDay rows ri di = some d0) (d : DayData) :
    getDay (setDay rows ri di d) ri di = some d := by
  cases hg : rows[ri]? with
  | none => rw [getDay, hg] at h; simp at h
  | some r =>
    rw [getDay_eq hg] at h
    have hri : ri < rows.length := (List.getElem?_eq_some.mp hg).1
    have hdi : di < r.days.length := (List.getElem?_eq_some.mp h).1
    show getDay (match rows[ri]? with
      | some r => rows.set ri { r with days := r.days.set di d }
      | none => rows) ri di = some d
    rw [hg]
    rw [getDay_eq (List.getElem?_set_self (by simpa using hri))]
    exact List.getElem?_set_self (by simpa using hdi)

/-- Writing one cell leaves every other cell unchanged. -/
theorem getDay_setDay_ne {rows : List TaskRowData} {ri di : Nat} (d : DayData)
    {i j : Nat} (h : ¬(i = ri ∧ j = di)) :
    getDay (setDay rows ri di d) i j = getDay rows i j := by
  show getDay (match rows[ri]? with
    | some r => rows.set ri { r with days := r.days.set di d }
    | none => rows) i j = getDay rows i j
  cases hg : rows[ri]? with
  | none => rfl
  | some r =>
    by_cases hi : i = ri
    · subst hi
      have hj : j ≠ di := fun hj => h ⟨rfl, hj⟩
      have hri : i < rows.length := (List.getElem?_eq_some.mp hg).1
      rw [getDay_eq (List.getElem?_set_self (by simpa using hri)), getDay_eq hg]
      exact List.getElem?_set_ne (Ne.symm hj)
    · unfold getDay
      rw [List.getElem?_set_ne (Ne.symm hi)]

/-- Writing a key that reads back nonempty and reading it again gives the
written value. -/
theorem storeGet_updateStore (st : Store) (k : String) (v : List TaskRowData)
    (h : storeGet st k ≠ []) :
    storeGet (updateStore st k v) k = v := by
  induction st with
  | nil => simp [storeGet] at h
  | cons kv rest ih =>
    by_cases hk : kv.1 = k
    · simp [storeGet, updateStore, hk]
    · rw [storeGet, if_neg hk] at h
      show storeGet ((if kv.1 = k then (kv.1, v) else kv) :: updateStore rest k v) k = v
      rw [if_neg hk, storeGet, if_neg hk]
      exact ih h

/-- Writing an absent key changes nothing (the code never reaches this case:
the key in view is always present). -/
theorem updateStore_not_mem (st : Store) (k : String) (v : List TaskRowData)
    (h : k ∉ st.map Prod.fst) : updateStore st k v = st := by
  induction st with
  | nil => rfl
  | cons kv rest ih =>
    simp only [List.map_cons, List.mem_cons, not_or] at h
    obtain ⟨h1, h2⟩ := h
    show ((if kv.1 = k then (kv.1, v) else kv) :: updateStore rest k v) = kv :: rest
    rw [if_neg (fun he => h1 he.symm), ih h2]

/-- Writing back the value a key already holds is the identity, for the
duplicate-free key lists a Python dict yields. -/
theorem updateStore_self (st : Store) (k : String)
    (hnd : (st.map Prod.fst).Nodup) :
    updateStore st k (storeGet st k) = st := by
  induction st with
  | nil => rfl
  | cons kv rest ih =>
    simp only [List.map_cons, List.nodup_cons] at hnd
    obtain ⟨h1, h2⟩ := hnd
    by_cases hk : kv.1 = k
    · have hsg : storeGet (kv :: rest) k = kv.2 := by rw [storeGet, if_pos hk]
      rw [hsg]
      show ((if kv.1 = k then (kv.1, kv.2) else kv) :: updateStore rest k kv.2) = kv :: rest
      rw [if_pos hk, updateStore_not_mem rest k kv.2 (hk ▸ h1)]
    · have hsg : storeGet (kv :: rest) k = storeGet rest k := by rw [storeGet, if_neg hk]
      rw [hsg]
      show ((if kv.1 = k then (kv.1, storeGet rest k) else kv)
        :: updateStore rest k (storeGet rest k)) = kv :: rest
      rw [if_neg hk, ih h2]

/-- Writing back the value read at a readable index is the identity. -/
theorem set_self {α : Type} (l : List α) (i : Nat) (a : α) (h : l[i]? = some a) :
    l.set i a = l := by
  induction l generalizing i with
  | nil => simp at h
  | cons b t ih =>
    cases i with
    | zero =>
      simp only [List.getElem?_cons_zero, Option.some.injEq] at h
      rw [← h]
      rfl
    | succ n =>
      simp only [List.getElem?_cons_succ] at h
      show b :: t.set n a = b :: t
      rw [ih n h]

/-- Writing back the day read from a cell is the identity on the sheet. -/
theorem setDay_self {rows : List TaskRowData} {ri di : Nat} {d : DayData}
    (h : getDay rows ri di = some d) :
    setDay rows ri di d = rows := by
  cases hg : rows[ri]? with
  | none => rw [getDay, hg] at h; simp at h
  | some r =>
    rw [getDay_eq hg] at h
    show (match rows[ri]? with
      | some r => rows.set ri { r with days := r.days.set di d }
      | none => rows) = rows
    rw [hg]
    show rows.set ri { r with days := r.days.set di d } = rows
    rw [set_self r.days di d h]
    exact set_self rows ri r hg

/-- On a closed sheet no cell reads as open. -/
theorem dayOpen_eq_false_of_allClosed {rows : List TaskRowData}
    (h : allClosed rows = true) (ri di : Nat) : dayOpen rows ri di = false := by
  cases hr : rows[ri]? with
  | none => simp [dayOpen, getDay, hr]
  | some r =>
    cases hd : r.days[di]? with
    | none => simp [dayOpen, getDay, hr, hd]
    | some d =>
      have hmem : r ∈ rows := List.getElem?_mem hr
      have hdm : d ∈ r.days := List.getElem?_mem hd
      rw [allClosed, List.all_eq_true] at h
      have h2 := h r hmem
      rw [List.all_eq_true] at h2
      have h3 := h2 d hdm
      have h4 : d.running_start = none := by
        cases hrs : d.running_start with
        | none => rfl
        | some t => rw [hrs] at h3; simp at h3
      simp [dayOpen, getDay, hr, hd, h4]

/-- The cell-found branch of _stop_timer, as an equation. -/
theorem stop_timer_eq_of_getDay {s : AppState} {ri di : Nat} {now : Instant}
    {d : DayData} (hg : getDay s.rows ri di = some d) :
    stop_timer s ri di now =
      some ({ data_store := updateStore s.data_store s.key
                (setDay s.rows ri di (stopDay d now.time))
              key := s.key
              active_timer := none
              file := saveStore (updateStore s.data_store s.key
                (setDay s.rows ri di (stopDay d now.time))) }, none) := by
  unfold stop_timer
  rw [hg]

/-- The cell-found branch of _toggle_timer, as an equation. -/
theorem toggle_timer_eq_of_getDay {s : AppState} {ri di : Nat} {now : Instant}
    {d : DayData} (hg : getDay s.rows ri di = some d) :
    toggle_timer s ri di now =
      if s.active_timer = some (ri, di) then
        stop_timer s ri di now
      else if s.active_timer.isSome then
        some (s, some Warning.activeTimer)
      else if di ≠ (now.weekday : Nat) then
        some (s, some Warning.invalidDay)
      else
        some ({ s with
                  data_store := updateStore s.data_store s.key
                    (setDay s.rows ri di { d with running_start := some now.time })
                  active_timer := some (ri, di) }, none) := by
  unfold toggle_timer
  rw [hg]

end StateLemmas

section Preservation

/-- One toggle click, whatever its outcome, preserves the single-active-timer
invariant. -/
theorem timerInv_toggle {s : AppState} {ri di : Nat} {now : Instant}
    {s1 : AppState} {w : Option Warning}
    (h : TimerInv s) (ht : toggle_timer s ri di now = some (s1, w)) :
    TimerInv s1 := by
  cases hg : getDay s.rows ri di with
  | none => rw [toggle_timer, hg] at ht; simp at ht
  | some d =>
    rw [toggle_timer_eq_of_getDay hg] at ht
    by_cases h1 : s.active_timer = some (ri, di)
    · rw [if_pos h1, stop_timer_eq_of_getDay hg] at ht
      simp only [Option.some.injEq, Prod.mk.injEq] at ht
      obtain ⟨rfl, rfl⟩ := ht
      intro i j hopen
      have hnn : s.rows ≠ [] := rows_ne_nil_of_getDay hg
      have hrows : AppState.rows
          { data_store := updateStore s.data_store s.key
              (setDay s.rows ri di (stopDay d now.time))
            key := s.key
            active_timer := none
            file := saveStore (updateStore s.data_store s.key
              (setDay s.rows ri di (stopDay d now.time))) } =
          setDay s.rows ri di (stopDay d now.time) :=
        storeGet_updateStore s.data_store s.key _ hnn
      rw [hrows] at hopen
      by_cases hij : i = ri ∧ j = di
      · obtain ⟨rfl, rfl⟩ := hij
        rw [dayOpen, getDay_setDay_self hg (stopDay d now.time)] at hopen
        cases hrs : d.running_start with
        | some t0 => simp [stopDay, hrs] at hopen
        | none => simp [stopDay, hrs] at hopen
      · rw [dayOpen, getDay_setDay_ne (stopDay d now.time) hij] at hopen
        have heq := ((h i j hopen).symm.trans h1).symm
        simp only [Option.some.injEq, Prod.mk.injEq] at heq
        exact absurd ⟨heq.1.symm, heq.2.symm⟩ hij
    · rw [if_neg h1] at ht
      by_cases h2 : s.active_timer.isSome = true
      · rw [if_pos h2] at ht
        simp only [Option.some.injEq, Prod.mk.injEq] at ht
        obtain ⟨rfl, rfl⟩ := ht
        exact h
      · rw [if_neg h2] at ht
        have hnone : s.active_timer = none :=
          isSome_false_eq_none (by simpa using h2)
        by_cases h3 : di ≠ (now.weekday : Nat)
        · rw [if_pos h3] at ht
          simp only [Option.some.injEq, Prod.mk.injEq] at ht
          obtain ⟨rfl, rfl⟩ := ht
          exact h
        · rw [if_neg h3] at ht
          simp only [Option.some.injEq, Prod.mk.injEq] at ht
          obtain ⟨rfl, rfl⟩ := ht
          intro i j hopen
          have hnn : s.rows ≠ [] := rows_ne_nil_of_getDay hg
          have hrows : AppState.rows
              { s with
                  data_store := updateStore s.data_store s.key
                    (setDay s.rows ri di { d with running_start := some now.time })
                  active_timer := some (ri, di) } =
              setDay s.rows ri di { d with running_start := some now.time } :=
            storeGet_updateStore s.data_store s.key _ hnn
          rw [hrows] at hopen
          by_cases hij : i = ri ∧ j = di
          · obtain ⟨rfl, rfl⟩ := hij
            rfl
          · rw [dayOpen, getDay_setDay_ne _ hij] at hopen
            have := h i j hopen
            rw [hnone] at this
            simp at this

/-- One click of the click-sequence semantics preserves the invariant. -/
theorem timerInv_step {s : AppState} (op : Op) (h : TimerInv s) :
    TimerInv (step s op) := by
  unfold step
  cases hga : toggle_timer s op.ri op.di op.now with
  | none => exact h
  | some pr =>
    obtain ⟨s1, w⟩ := pr
    exact timerInv_toggle h hga

/-- Every state reached by a click sequence satisfies the invariant. -/
theorem timerInv_run {s : AppState} (ops : List Op) (h : TimerInv s) :
    TimerInv (run s ops) := by
  induction ops generalizing s with
  | nil => exact h
  | cons op rest ih => exact ih (timerInv_step op h)

end Preservation

/-- Claim C1: single active timer. Starting from the Idle state (no active
reference, every day record closed), after any sequence of toggle clicks at
most one (row, weekday) cell of the loaded sheet has an open running timer; and
from any state whose active reference points at some other pair, a toggle on a
second pair pops the Active Timer warning (the TimerBusyError of the design)
and returns the state unchanged. -/
theorem single_active_timer (s0 : AppState) (ops : List Op)
    (h_active : s0.active_timer = none) (h_closed : allClosed s0.rows = true) :
    (∀ ri di ri2 di2, dayOpen (run s0 ops).rows ri di = true →
        dayOpen (run s0 ops).rows ri2 di2 = true → (ri, di) = (ri2, di2)) ∧
      ∀ (s : AppState) (ri di : Nat) (now : Instant) (p : Nat × Nat) (d : DayData),
        s.active_timer = some p → (ri, di) ≠ p → getDay s.rows ri di = some d →
        toggle_timer s ri di now = some (s, some Warning.activeTimer) := by
  constructor
  · have hinv0 : TimerInv s0 := by
      intro ri di hopen
      rw [dayOpen_eq_false_of_allClosed h_closed ri di] at hopen
      simp at hopen
    have hinv := timerInv_run ops hinv0
    intro ri di ri2 di2 h1 h2
    have e2 := (hinv ri di h1).symm.trans (hinv ri2 di2 h2)
    injection e2
  · intro s ri di now p d hp hne hg
    rw [toggle_timer_eq_of_getDay hg]
    have h1 : ¬(s.active_timer = some (ri, di)) := by
      rw [hp]
      intro he
      injection he with he2
      exact hne he2.symm
    rw [if_neg h1, if_pos (show s.active_timer.isSome = true by rw [hp]; rfl)]

/-- The idle one-row sheet used to instantiate C1: one task, all days closed,
file in sync. -/
def c1state : AppState :=
  ⟨[("w", [TaskRowData.new "T" "S"])], "w", none,
    saveStore [("w", [TaskRowData.new "T" "S"])]⟩

/-- Three clicks: start Monday, click Tuesday while running, stop Monday. -/
def c1ops : List Op := [⟨0, 0, ⟨100, 0⟩⟩, ⟨0, 1, ⟨150, 0⟩⟩, ⟨0, 0, ⟨200, 0⟩⟩]

/-- Witness for C1 at the concrete idle sheet and click sequence. -/
theorem single_active_timer_witness :
    c1state.active_timer = none ∧ allClosed c1state.rows = true ∧
      ((∀ ri di ri2 di2, dayOpen (run c1state c1ops).rows ri di = true →
          dayOpen (run c1state c1ops).rows ri2 di2 = true → (ri, di) = (ri2, di2)) ∧
        ∀ (s : AppState) (ri di : Nat) (now : Instant) (p : Nat × Nat) (d : DayData),
          s.active_timer = some p → (ri, di) ≠ p → getDay s.rows ri di = some d →
          toggle_timer s ri di now = some (s, some Warning.activeTimer)) :=
  ⟨rfl, by decide, single_active_timer c1state c1ops rfl (by decide)⟩

/-- Claim C3 amended: stopping a running timer at an instant at or before
running_start does not fail and does not leave the timer running; exactly as at
any other instant, the session (running_start, now) is appended, with
non-positive duration, the timer is cleared, the active reference is dropped
and the store is saved. No warning is raised. -/
theorem stop_backward_appends (s : AppState) (ri di : Nat) (now : Instant)
    (t0 : Rat) (d : DayData)
    (hg : getDay s.rows ri di = some d) (hr : d.running_start = some t0)
    (hb : now.time ≤ t0) :
    stop_timer s ri di now =
      some ({ data_store := updateStore s.data_store s.key
                (setDay s.rows ri di ⟨d.sessions ++ [(t0, now.time)], d.notes, none⟩)
              key := s.key
              active_timer := none
              file := saveStore (updateStore s.data_store s.key
                (setDay s.rows ri di
                  ⟨d.sessions ++ [(t0, now.time)], d.notes, none⟩)) }, none) := by
  rw [stop_timer_eq_of_getDay hg, stopDay, hr]

/-- The running one-row sheet used against C3: the Monday timer opened at 100,
the active reference on (0, 0). -/
def c3state : AppState :=
  ⟨[("w", [⟨"T", "S", DayData.mk [] "" (some 100) :: List.replicate 6 DayData.empty⟩])],
    "w", some (0, 0),
    saveStore [("w", [⟨"T", "S", DayData.mk [] "" (some 100)
      :: List.replicate 6 DayData.empty⟩])]⟩

/-- The sheet after the backward stop: the negative-duration session recorded,
the timer cleared. -/
def c3state2 : AppState :=
  ⟨[("w", [⟨"T", "S", DayData.mk [(100, 50)] "" none :: List.replicate 6 DayData.empty⟩])],
    "w", none,
    saveStore [("w", [⟨"T", "S", DayData.mk [(100, 50)] "" none
      :: List.replicate 6 DayData.empty⟩])]⟩

/-- Counterexample to C3 as stated: a toggle stop at instant 50 on a timer
opened at 100 raises no InvalidInterval and does not leave the timer running;
the code appends the session (100, 50) and clears running_start. -/
theorem stop_backward_counterexample :
    toggle_timer c3state 0 0 ⟨50, 0⟩ = some (c3state2, none) ∧
      getDay c3state2.rows 0 0 = some (DayData.mk [(100, 50)] "" none) := by
  refine ⟨by decide, by decide⟩

/-- Witness for the amended C3 at the concrete running sheet, stopped at 50. -/
theorem stop_backward_appends_witness :
    getDay c3state.rows 0 0 = some (DayData.mk [] "" (some 100)) ∧
      (DayData.mk [] "" (some 100)).running_start = some 100 ∧
      ((⟨50, 0⟩ : Instant).time ≤ 100) ∧
      stop_timer c3state 0 0 ⟨50, 0⟩ =
        some ({ data_store := updateStore c3state.data_store c3state.key
                  (setDay c3state.rows 0 0 ⟨[] ++ [(100, 50)], "", none⟩)
                key := c3state.key
                active_timer := none
                file := saveStore (updateStore c3state.data_store c3state.key
                  (setDay c3state.rows 0 0 ⟨[] ++ [(100, 50)], "", none⟩)) }, none) :=
  ⟨by decide, rfl, by norm_num,
    stop_backward_appends c3state 0 0 ⟨50, 0⟩ 100 (DayData.mk [] "" (some 100))
      (by decide) rfl (by norm_num)⟩

/-- Claim C4 amended: calling stop while Idle raises no NotRunningError and
pops no warning; it is a silent no-op. No session is appended, running_start
fields and the active reference stay unchanged, and the store is rewritten with
identical content, so for a file in sync with memory the whole state is
unchanged. -/
theorem stop_while_idle_noop (s : AppState) (ri di : Nat) (now : Instant)
    (d : DayData)
    (h_idle : s.active_timer = none)
    (hg : getDay s.rows ri di = some d)
    (hd : d.running_start = none)
    (h_keys : (s.data_store.map Prod.fst).Nodup)
    (h_sync : s.file = saveStore s.data_store) :
    stop_timer s ri di now = some (s, none) := by
  rw [stop_timer_eq_of_getDay hg]
  have h1 : stopDay d now.time = d := by rw [stopDay, hd]
  rw [h1, setDay_self hg]
  have h2 : updateStore s.data_store s.key s.rows = s.data_store :=
    updateStore_self s.data_store s.key h_keys
  rw [h2, ← h_sync, ← h_idle]

/-- The idle one-row sheet used against C4, file in sync with memory. -/
def c4state : AppState :=
  ⟨[("A::2024-06-03", [TaskRowData.new "Lead Management" "CRM Management"])],
    "A::2024-06-03", none,
    saveStore [("A::2024-06-03", [TaskRowData.new "Lead Management" "CRM Management"])]⟩

/-- Counterexample to C4 as stated: stopping the idle sheet returns normally
with no warning of any kind (the second component is none, where the claim
demands a NotRunningError rejection) and the state is literally unchanged. -/
theorem stop_idle_counterexample :
    stop_timer c4state 0 0 ⟨500, 2⟩ = some (c4state, none) := by decide

/-- Witness for the amended C4 at the concrete idle sheet. -/
theorem stop_while_idle_noop_witness :
    c4state.active_timer = none ∧
      getDay c4state.rows 0 0 = some DayData.empty ∧
      DayData.empty.running_start = none ∧
      (c4state.data_store.map Prod.fst).Nodup ∧
      c4state.file = saveStore c4state.data_store ∧
      stop_timer c4state 0 0 ⟨900, 4⟩ = some (c4state, none) :=
  ⟨rfl, by decide, rfl, by decide, rfl,
    stop_while_idle_noop c4state 0 0 ⟨900, 4⟩ DayData.empty rfl (by decide) rfl
      (by decide) rfl⟩

/-- Claim C8: today-only start. From the Idle state, toggling a readable cell
starts its timer exactly when the clicked weekday is the weekday of now (the
running_start is set and the active reference points at the pair); on any other
weekday it pops the Invalid warning (the WrongDayError of the design) and
returns the state unchanged. -/
theorem today_only_start (s : AppState) (ri di : Nat) (now : Instant)
    (d : DayData)
    (h_idle : s.active_timer = none) (hg : getDay s.rows ri di = some d) :
    (di = (now.weekday : Nat) →
      toggle_timer s ri di now =
        some ({ s with
                  data_store := updateStore s.data_store s.key
                    (setDay s.rows ri di { d with running_start := some now.time })
                  active_timer := some (ri, di) }, none)) ∧
      (di ≠ (now.weekday : Nat) →
        toggle_timer s ri di now = some (s, some Warning.invalidDay)) := by
  have h1 : ¬(s.active_timer = some (ri, di)) := by rw [h_idle]; simp
  have h2 : ¬(s.active_timer.isSome = true) := by rw [h_idle]; simp
  constructor
  · intro hd
    rw [toggle_timer_eq_of_getDay hg, if_neg h1, if_neg h2,
      if_neg (show ¬(di ≠ (now.weekday : Nat)) from fun hne => hne hd)]
  · intro hd
    rw [toggle_timer_eq_of_getDay hg, if_neg h1, if_neg h2, if_pos hd]

/-- The idle one-row sheet used to instantiate C8. -/
def c8state : AppState :=
  ⟨[("w", [TaskRowData.new "T" "S"])], "w", none,
    saveStore [("w", [TaskRowData.new "T" "S"])]⟩

/-- Witness for C8: on a Monday instant, clicking Wednesday pops the Invalid
warning and changes nothing. -/
theorem today_only_start_witness :
    c8state.active_timer = none ∧
      getDay c8state.rows 0 2 = some DayData.empty ∧
      (2 : Nat) ≠ (((⟨100, 0⟩ : Instant).weekday : Nat)) ∧
      toggle_timer c8state 0 2 ⟨100, 0⟩ = some (c8state, some Warning.invalidDay) :=
  ⟨rfl, by decide, by decide,
    (today_only_start c8state 0 2 ⟨100, 0⟩ DayData.empty rfl (by decide)).2
      (by decide)⟩

end Timesheet
